import Mathlib

/-!
Verification of the ADHDone AI personalization helper
(`src/android/app/src/authRedirectBootstrap.ts`, the IIFE installing
`window.AdhdoneAI`).  The script tracks reminder interactions per task,
generates throttled adaptive suggestions when a task is skipped repeatedly,
and organizes free-text "brain dump" lists into buckets, with a
deterministic heuristic path and an optional OpenAI path that degrades to
the heuristic on any failure.

The embedding below is a direct shallow translation of the script:
JavaScript objects used as string-keyed maps become functions
`String → Option _`, arrays become `List`, epoch-millisecond clock values
become `Int`, and the external world (availability of `global.fetch`, the
stored API key, the HTTP response, `JSON.parse`) is passed in explicitly,
since the script only consumes those through fixed call sites.
-/

namespace AdhdoneAI

/-- An entry of a task's interaction history
(`{action, timestamp, context}` pushed in `recordReminderInteraction`);
the opaque `context` map is not inspected by any of the tracked code
paths, so it is elided from the entry. -/
structure InteractionEntry where
  action : String
  timestamp : String
  deriving Repr, DecidableEq

/-- Per-task state created lazily by `getTaskState`. -/
structure TaskState where
  history : List InteractionEntry
  consecutiveSkips : Nat
  lastSuggestionTimestamp : Int
  deriving Repr, DecidableEq

/-- The caller-supplied `context` object, restricted to the fields the
script reads (`baselineStep`, `reminderIntervalMinutes`, `description`).
`none` models an absent / `null` / otherwise falsy non-numeric value. -/
structure ReminderContext where
  baselineStep : Option String := none
  reminderIntervalMinutes : Option Nat := none
  description : Option String := none
  deriving Repr, DecidableEq

/-- The summary built by `buildReminderSummary`. -/
structure ReminderSummary where
  taskId : String
  consecutiveSkips : Nat
  recentInteractions : List InteractionEntry
  context : ReminderContext
  deriving Repr, DecidableEq

/-- The three fields the script reads off a successfully parsed OpenAI
reminder reply (`parsed.message`, `parsed.suggestedStartStep`,
`parsed.reminderIntervalMinutes`); `none` models a missing key. -/
structure ParsedSuggestion where
  message : Option String := none
  suggestedStartStep : Option String := none
  reminderIntervalMinutes : Option Nat := none
  deriving Repr, DecidableEq

/-- `suggestion.rawResponse`: either the raw unparseable model text or the
parsed JSON object. -/
inductive RawResponse where
  | text : String → RawResponse
  | json : ParsedSuggestion → RawResponse
  deriving Repr, DecidableEq

/-- `recommendedAdjustments`; on the LLM path missing parsed fields pass
through as `undefined`, hence the `Option` fields. -/
structure RecommendedAdjustments where
  suggestedStartStep : Option String
  reminderIntervalMinutes : Option Nat
  deriving Repr, DecidableEq

/-- A generated `Suggestion`. -/
structure Suggestion where
  taskId : String
  reason : String
  message : String
  recommendedAdjustments : RecommendedAdjustments
  rawResponse : Option RawResponse := none
  error : Option String := none
  deriving Repr, DecidableEq

/-- A record of `state.brainDumpHistory`. -/
structure BrainDumpRecord where
  items : List String
  timestamp : String
  deriving Repr, DecidableEq

/-- String-keyed JavaScript object used as a map. -/
def StrMap (α : Type) : Type := String → Option α

/-- The empty object `{}`. -/
def StrMap.empty {α : Type} : StrMap α := fun _ => none

/-- Property assignment `m[k] = v`. -/
def StrMap.set {α : Type} (m : StrMap α) (k : String) (v : α) : StrMap α :=
  fun q => if q = k then some v else m q

/-- Property deletion `delete m[k]`. -/
def StrMap.del {α : Type} (m : StrMap α) (k : String) : StrMap α :=
  fun q => if q = k then none else m q

/-- The process-wide mutable `state` object. -/
structure GlobalState where
  tasks : StrMap TaskState
  lastSuggestion : StrMap Suggestion
  brainDumpHistory : List BrainDumpRecord

/-- The default skeleton `{tasks: \x7b\x7d, lastSuggestion: \x7b\x7d, brainDumpHistory: []}`. -/
def initialState : GlobalState :=
  { tasks := StrMap.empty
    lastSuggestion := StrMap.empty
    brainDumpHistory := [] }

/-- `getTaskState`: look up the task, or the freshly created default.
(The JavaScript version also stores the created object; the store is
performed by the callers' state updates in this embedding.) -/
def getTaskState (s : GlobalState) (taskId : String) : TaskState :=
  match s.tasks taskId with
  | some existing => existing
  | none => { history := [], consecutiveSkips := 0, lastSuggestionTimestamp := 0 }

/-- `trackHistory`: push the entry, then
`splice(0, length - MAX_HISTORY)` when the length exceeds 50. -/
def trackHistory (history : List InteractionEntry) (entry : InteractionEntry) :
    List InteractionEntry :=
  let pushed := history ++ [entry]
  if pushed.length > 50 then pushed.drop (pushed.length - 50) else pushed

/-- `buildReminderSummary`: `history.slice(-5)` plus counters. -/
def buildReminderSummary (taskId : String) (taskState : TaskState)
    (context : ReminderContext) : ReminderSummary :=
  { taskId
    consecutiveSkips := taskState.consecutiveSkips
    recentInteractions := taskState.history.drop (taskState.history.length - 5)
    context }

/-- JavaScript `String.prototype.trim`: strip leading and trailing
whitespace (stated on the character list so that it reduces in the
kernel). -/
def jsTrim (s : String) : String :=
  String.mk (((s.data.dropWhile Char.isWhitespace).reverse.dropWhile
    Char.isWhitespace).reverse)

/-- JavaScript `String.prototype.toLowerCase` for the ASCII texts the
matchers see. -/
def jsToLower (s : String) : String :=
  String.mk (s.data.map Char.toLower)

/-- JavaScript `x || d` for an optional string field (absent, `null` and
the empty string are falsy). -/
def strOrDefault (v : Option String) (d : String) : String :=
  match v with
  | none => d
  | some s => if s = "" then d else s

/-- JavaScript `x || d` for an optional numeric field (absent, `null` and
`0` are falsy). -/
def natOrDefault (v : Option Nat) (d : Nat) : Nat :=
  match v with
  | none => d
  | some n => if n = 0 then d else n

/-- `Math.round(n * 0.5)` for a natural number `n`: JavaScript rounds the
half case up, so this is `(n + 1) / 2` in integer division. -/
def roundHalf (n : Nat) : Nat := (n + 1) / 2

/-- `fallbackReminderSuggestion`: the deterministic heuristic suggestion. -/
def fallbackReminderSuggestion (summary : ReminderSummary) : Suggestion :=
  { taskId := summary.taskId
    reason := "consecutive-skips"
    message :=
      "You\x27ve skipped this task " ++ toString summary.consecutiveSkips ++
      " times. Try choosing a smaller first step and consider shortening the reminder interval."
    recommendedAdjustments :=
      { suggestedStartStep :=
          some (strOrDefault summary.context.baselineStep
            "Set a 2-minute timer and only prep the very first thing.")
        reminderIntervalMinutes :=
          some (max 15
            (roundHalf (natOrDefault summary.context.reminderIntervalMinutes 45))) }
    rawResponse := none
    error := none }

/-- Outcome of the single `fetch` call inside `callOpenAI`: either the
promise rejects (network error), or a response arrives with `ok`,
`status`, the optional `error.message` of the error payload, and the
optional `output[0].content[0].text` field of the success payload
(`none` models an absent or non-string field). -/
inductive HttpOutcome where
  | networkError : String → HttpOutcome
  | response : Bool → Nat → Option String → Option String → HttpOutcome
  deriving Repr, DecidableEq

/-- `callOpenAI`: fails on a missing API key before any network use, on a
rejected fetch, on a non-ok response (using the server-provided
`error.message` when present and non-empty), and on an absent, non-string
or blank-after-trim text field; otherwise returns the trimmed text. -/
def callOpenAI (apiKey : String) (http : HttpOutcome) : Except String String :=
  if apiKey = "" then Except.error "Missing OpenAI API key"
  else
    match http with
    | HttpOutcome.networkError message => Except.error message
    | HttpOutcome.response ok status errorMessage text =>
      if ok = false then
        Except.error (strOrDefault errorMessage
          ("OpenAI request failed with status " ++ toString status))
      else
        match text with
        | none => Except.error "OpenAI returned an unexpected response format"
        | some t =>
          if jsTrim t = "" then
            Except.error "OpenAI returned an unexpected response format"
          else Except.ok (jsTrim t)

/-- The parts of the execution environment `callOpenAI` and its callers
consume: whether `global.fetch` exists, the stored API key (empty string
when absent), and the HTTP outcome of the one request. -/
structure OpenAIEnv where
  fetchAvailable : Bool
  apiKey : String
  http : HttpOutcome
  deriving Repr, DecidableEq

/-- `generateReminderAdjustments`: heuristic when `fetch` is unavailable
or the caller forces the fallback; otherwise the OpenAI path, degrading to
the annotated heuristic on any failure.  `parse` models
`safeParse(text, null)` followed by the `if (!parsed)` truthiness test:
`none` when `JSON.parse` throws or yields a falsy value. -/
def generateReminderAdjustments (summary : ReminderSummary) (forceFallback : Bool)
    (env : OpenAIEnv) (parse : String → Option ParsedSuggestion) : Suggestion :=
  if env.fetchAvailable = false ∨ forceFallback = true then
    fallbackReminderSuggestion summary
  else
    match callOpenAI env.apiKey env.http with
    | Except.error e =>
      { fallbackReminderSuggestion summary with error := some e }
    | Except.ok text =>
      match parse text with
      | none =>
        { fallbackReminderSuggestion summary with
            rawResponse := some (RawResponse.text text) }
      | some parsed =>
        { taskId := summary.taskId
          reason := "consecutive-skips"
          message := strOrDefault parsed.message
            "Let\x27s tweak this reminder with something gentler and more specific."
          recommendedAdjustments :=
            { suggestedStartStep := parsed.suggestedStartStep
              reminderIntervalMinutes := parsed.reminderIntervalMinutes }
          rawResponse := some (RawResponse.json parsed)
          error := none }

/-- `ONE_HOUR` in milliseconds. -/
def ONE_HOUR : Int := 60 * 60 * 1000

/-- `shouldThrottleSuggestion`: true when less than one hour has passed
since the last suggestion for this task. -/
def shouldThrottleSuggestion (taskState : TaskState) (nowMs : Int) : Bool :=
  decide (nowMs - taskState.lastSuggestionTimestamp < ONE_HOUR)

/-- The consecutive-skip counter update of `recordReminderInteraction`:
`skip` increments, `complete` and `snooze` reset to 0, anything else
leaves the counter unchanged. -/
def nextConsecutiveSkips (action : String) (prev : Nat) : Nat :=
  if action = "skip" then prev + 1
  else if action = "complete" ∨ action = "snooze" then 0
  else prev

/-- The argument object of `recordReminderInteraction` (the
`onSuggestion` callback only forwards the returned suggestion and is
elided). -/
structure RecordArgs where
  taskId : String
  action : String
  timestamp : String := ""
  context : ReminderContext := {}
  forceFallback : Bool := false
  deriving Repr, DecidableEq

/-- `recordReminderInteraction`: validate, update the task state, then
generate, store and stamp a suggestion when the trigger condition holds.
The thrown `Error` of the invalid case becomes `Except.error` paired with
the untouched state (the JavaScript `throw` happens before any state
mutation). -/
def recordReminderInteraction (s : GlobalState) (args : RecordArgs) (nowMs : Int)
    (env : OpenAIEnv) (parse : String → Option ParsedSuggestion) :
    Except String (Option Suggestion) × GlobalState :=
  if args.taskId = "" ∨ args.action = "" then
    (Except.error "recordReminderInteraction requires a taskId and action", s)
  else
    let taskState := getTaskState s args.taskId
    let actionEntry : InteractionEntry :=
      { action := args.action, timestamp := args.timestamp }
    let updated : TaskState :=
      { taskState with
          consecutiveSkips := nextConsecutiveSkips args.action taskState.consecutiveSkips
          history := trackHistory taskState.history actionEntry }
    let s1 : GlobalState := { s with tasks := s.tasks.set args.taskId updated }
    let summary := buildReminderSummary args.taskId updated args.context
    if 3 ≤ updated.consecutiveSkips ∧ shouldThrottleSuggestion updated nowMs = false then
      let suggestion := generateReminderAdjustments summary args.forceFallback env parse
      let stamped : TaskState := { updated with lastSuggestionTimestamp := nowMs }
      let s2 : GlobalState :=
        { s1 with
            tasks := s1.tasks.set args.taskId stamped
            lastSuggestion := s1.lastSuggestion.set args.taskId suggestion }
      (Except.ok (some suggestion), s2)
    else
      (Except.ok none, s1)

/-- `getLastSuggestion`: `state.lastSuggestion?.[taskId] || null`. -/
def getLastSuggestion (s : GlobalState) (taskId : String) : Option Suggestion :=
  s.lastSuggestion taskId

/-- `resetTaskHistory`: early return on a falsy id, otherwise delete the
task state and any last suggestion for the id. -/
def resetTaskHistory (s : GlobalState) (taskId : String) : GlobalState :=
  if taskId = "" then s
  else
    { s with
        tasks := s.tasks.del taskId
        lastSuggestion := s.lastSuggestion.del taskId }

/-- The ordered `focusBuckets` rule list of `fallbackBrainDump`; each
regular expression is an alternation of literal lowercase words with the
`i` flag, i.e. a case-insensitive any-of-keywords substring test. -/
def focusBuckets : List (String × List String) :=
  [("2-minute Wins", ["call", "email", "text", "pay", "tidy"]),
   ("Prep & Planning", ["plan", "prepare", "research", "outline"]),
   ("Deep Work", ["write", "design", "build", "develop", "analyze"]),
   ("Personal Care", ["cook", "exercise", "meditate", "laundry", "clean", "rest", "self"])]

/-- `matcher.test(text)` for one bucket: some keyword occurs in the text,
ignoring case. -/
def matcherTest (keywords : List String) (text : String) : Bool :=
  keywords.any (fun kw => decide (List.IsInfix kw.data (jsToLower text).data))

/-- The label chosen for a non-blank trimmed item text: the first rule of
`focusBuckets` whose matcher tests true, else `"Miscellaneous"`. -/
def matchLabel (text : String) : String :=
  match focusBuckets.find? (fun bucket => matcherTest bucket.2 text) with
  | some bucket => bucket.1
  | none => "Miscellaneous"

/-- `output.categories[label].push(text)` on a JavaScript object whose
keys keep insertion order: extend the existing bucket in place, or append
a new singleton bucket at the end. -/
def addToBucket (categories : List (String × List String)) (label : String)
    (text : String) : List (String × List String) :=
  match categories with
  | [] => [(label, [text])]
  | (l, xs) :: rest =>
    if l = label then (l, xs ++ [text]) :: rest
    else (l, xs) :: addToBucket rest label text

/-- The body of the `items.forEach` loop of `fallbackBrainDump`: trim the
item, skip it when blank, otherwise file it under its first-matching
label. -/
def categorizeStep (categories : List (String × List String)) (item : String) :
    List (String × List String) :=
  let text := jsTrim item
  if text = "" then categories
  else addToBucket categories (matchLabel text) text

/-- The whole `items.forEach` loop of `fallbackBrainDump`. -/
def categorize (items : List String) : List (String × List String) :=
  items.foldl categorizeStep []

/-- `Object.entries(categories).sort((a, b) => b[1].length - a[1].length)[0]`:
the head of a stable descending sort by bucket size, i.e. the first bucket
in insertion order among those of maximal size. -/
def mostPopulated (categories : List (String × List String)) :
    Option (String × List String) :=
  match categories with
  | [] => none
  | c :: rest =>
    some (rest.foldl
      (fun best candidate =>
        if best.2.length < candidate.2.length then candidate else best)
      c)

/-- The result object of the brain dump organizer.  On the LLM success
path the fields come from untyped parsed JSON, hence the `Option`s; the
heuristic path always fills them. -/
structure BrainDumpResult where
  categories : List (String × List String)
  focusRecommendation : Option String
  summary : Option String
  rawResponse : Option String := none
  error : Option String := none
  deriving Repr, DecidableEq

/-- `fallbackBrainDump`: heuristic categorization, focus recommendation
from the most populated bucket, and the fixed-format summary counting
`items.length` submitted items and `Object.keys(categories).length || 1`
categories. -/
def fallbackBrainDump (items : List String) : BrainDumpResult :=
  let categories := categorize items
  { categories
    focusRecommendation :=
      some (match mostPopulated categories with
        | some bucket => "Start with one item from \"" ++ bucket.1 ++ "\" today."
        | none => "Choose one quick win task that takes under 5 minutes.")
    summary :=
      some ("Organized " ++ toString items.length ++ " items into " ++
        toString (if categories.length = 0 then 1 else categories.length) ++
        " categories.")
    rawResponse := none
    error := none }

/-- The fields the script touches on a successfully parsed OpenAI brain
dump reply; the parsed object is returned as the result, so its shape
mirrors `BrainDumpResult`. -/
structure ParsedBrainDump where
  categories : List (String × List String) := []
  focusRecommendation : Option String := none
  summary : Option String := none
  rawResponse : Option String := none
  deriving Repr, DecidableEq

/-- `organizeBrainDump`: normalize non-array input to `[]` (modelled by
`none`), append a `BrainDumpRecord` and persist before anything else,
then pick the heuristic or LLM path with the same degradation policy as
the suggestion generator. -/
def organizeBrainDump (s : GlobalState) (items : Option (List String))
    (nowIso : String) (forceFallback : Bool) (env : OpenAIEnv)
    (parse : String → Option ParsedBrainDump) : BrainDumpResult × GlobalState :=
  let normalizedItems := match items with
    | some l => l
    | none => []
  let s1 : GlobalState :=
    { s with
        brainDumpHistory :=
          s.brainDumpHistory ++ [{ items := normalizedItems, timestamp := nowIso }] }
  if env.fetchAvailable = false ∨ forceFallback = true then
    (fallbackBrainDump normalizedItems, s1)
  else
    match callOpenAI env.apiKey env.http with
    | Except.error e =>
      ({ fallbackBrainDump normalizedItems with error := some e }, s1)
    | Except.ok text =>
      match parse text with
      | none =>
        ({ fallbackBrainDump normalizedItems with rawResponse := some text }, s1)
      | some parsed =>
        ({ categories := parsed.categories
           focusRecommendation := parsed.focusRecommendation
           summary := parsed.summary
           rawResponse := some (strOrDefault parsed.rawResponse text)
           error := none }, s1)

/-- An offline environment: `global.fetch` absent, so every generation
call takes the heuristic path. -/
def offlineEnv : OpenAIEnv :=
  { fetchAvailable := false, apiKey := "", http := HttpOutcome.networkError "" }

/-- A parse oracle that never succeeds (irrelevant on heuristic paths). -/
def noParse : String → Option ParsedSuggestion := fun _ => none

/-- The successful branch of the awaited `recordReminderInteraction`
promise: the returned suggestion-or-null paired with the post-call state
(errors keep the state and yield no suggestion). -/
def runInteraction (s : GlobalState) (args : RecordArgs) (nowMs : Int)
    (env : OpenAIEnv) (parse : String → Option ParsedSuggestion) :
    Option Suggestion × GlobalState :=
  match recordReminderInteraction s args nowMs env parse with
  | (Except.ok r, s2) => (r, s2)
  | (Except.error _, s2) => (none, s2)

/-- A sequence of recorded interactions, threaded through the state. -/
def runArgsList (s : GlobalState) (argsList : List RecordArgs) (nowMs : Int)
    (env : OpenAIEnv) (parse : String → Option ParsedSuggestion) : GlobalState :=
  argsList.foldl (fun st a => (runInteraction st a nowMs env parse).2) s

/-- The history entry recorded for one call. -/
def entryOf (a : RecordArgs) : InteractionEntry :=
  { action := a.action, timestamp := a.timestamp }

/-- A bare skip interaction for one task. -/
def skipArgs (taskId : String) : RecordArgs := { taskId := taskId, action := "skip" }

/-- The state after two offline skip interactions for `"task-1"` starting
from the default skeleton. -/
def twoSkips : GlobalState :=
  (runInteraction
    (runInteraction initialState (skipArgs "task-1") 0 offlineEnv noParse).2
    (skipArgs "task-1") 0 offlineEnv noParse).2

/-- `output.categories[label]` read back as a list (`[]` when the key is
absent). -/
def bucketLookup (categories : List (String × List String)) (label : String) :
    List String :=
  match categories.find? (fun b => b.1 == label) with
  | some b => b.2
  | none => []

/-- A sample stored suggestion for witness states. -/
def sampleSuggestion : Suggestion :=
  fallbackReminderSuggestion
    { taskId := "task-1", consecutiveSkips := 3, recentInteractions := [], context := {} }

/-- A sample reminder summary with a given context interval, for witness
instantiations. -/
def summaryWithInterval (v : Option Nat) : ReminderSummary :=
  { taskId := "task-1", consecutiveSkips := 3, recentInteractions := [],
    context := { reminderIntervalMinutes := v } }

/-- A sample populated state for witness instantiations. -/
def sampleState : GlobalState :=
  { tasks := StrMap.empty.set "task-1"
      { history := [], consecutiveSkips := 2, lastSuggestionTimestamp := 0 }
    lastSuggestion := StrMap.empty.set "task-1" sampleSuggestion
    brainDumpHistory := [] }

end AdhdoneAI

open AdhdoneAI

theorem strMap_set_self {α : Type} (m : StrMap α) (k : String) (v : α) :
    m.set k v k = some v := by
  simp [StrMap.set]

theorem strMap_set_other {α : Type} (m : StrMap α) (k q : String) (v : α)
    (h : q ≠ k) : m.set k v q = m q := by
  simp [StrMap.set, h]

theorem getTaskState_of_eq {s : GlobalState} {k : String} {ts : TaskState}
    (h : s.tasks k = some ts) : getTaskState s k = ts := by
  simp [getTaskState, h]

theorem shouldThrottle_false_iff (ts : TaskState) (nowMs : Int) :
    shouldThrottleSuggestion ts nowMs = false ↔
      ONE_HOUR ≤ nowMs - ts.lastSuggestionTimestamp := by
  simp [shouldThrottleSuggestion, not_lt]

/-- Characterization of a structurally valid `recordReminderInteraction`
call: no error is raised, the task's new state applies `trackHistory` and
the consecutive-skip update, other keys and the brain dump history are
untouched, a suggestion is returned exactly when the trigger condition
holds, and the trigger's side effects (storing the suggestion and stamping
the timestamp) occur exactly in that case. -/
theorem record_valid_spec (s : GlobalState) (args : RecordArgs) (nowMs : Int)
    (env : OpenAIEnv) (parse : String → Option ParsedSuggestion)
    (h1 : args.taskId ≠ "") (h2 : args.action ≠ "") :
    ∃ (res : Option Suggestion) (st : GlobalState) (ts : TaskState),
      recordReminderInteraction s args nowMs env parse = (Except.ok res, st) ∧
      st.tasks args.taskId = some ts ∧
      ts.history = trackHistory (getTaskState s args.taskId).history
        { action := args.action, timestamp := args.timestamp } ∧
      ts.consecutiveSkips =
        nextConsecutiveSkips args.action (getTaskState s args.taskId).consecutiveSkips ∧
      (∀ q, q ≠ args.taskId → st.tasks q = s.tasks q ∧
        st.lastSuggestion q = s.lastSuggestion q) ∧
      st.brainDumpHistory = s.brainDumpHistory ∧
      (res.isSome = true ↔
        (3 ≤ nextConsecutiveSkips args.action (getTaskState s args.taskId).consecutiveSkips ∧
         ONE_HOUR ≤ nowMs - (getTaskState s args.taskId).lastSuggestionTimestamp)) ∧
      (∀ sug, res = some sug →
        sug = generateReminderAdjustments
          (buildReminderSummary args.taskId ts args.context) args.forceFallback env parse ∧
        st.lastSuggestion args.taskId = some sug ∧
        ts.lastSuggestionTimestamp = nowMs) ∧
      (res = none → st.lastSuggestion args.taskId = s.lastSuggestion args.taskId ∧
        ts.lastSuggestionTimestamp = (getTaskState s args.taskId).lastSuggestionTimestamp) := by
  unfold recordReminderInteraction
  rw [if_neg (by simp [h1, h2])]
  simp only []
  by_cases hc : 3 ≤ nextConsecutiveSkips args.action (getTaskState s args.taskId).consecutiveSkips ∧
      shouldThrottleSuggestion
        { history := trackHistory (getTaskState s args.taskId).history
            { action := args.action, timestamp := args.timestamp },
          consecutiveSkips := nextConsecutiveSkips args.action (getTaskState s args.taskId).consecutiveSkips,
          lastSuggestionTimestamp := (getTaskState s args.taskId).lastSuggestionTimestamp } nowMs = false
  · rw [if_pos hc]
    refine ⟨_, _, _, rfl, strMap_set_self _ _ _, rfl, rfl, ?_, rfl, ?_, ?_, ?_⟩
    · intro q hq
      simp [StrMap.set, hq]
    · simp only [Option.isSome_some, true_iff]
      exact ⟨hc.1, (shouldThrottle_false_iff _ _).mp hc.2⟩
    · intro sug hsug
      obtain rfl : _ = sug := Option.some.inj hsug
      exact ⟨rfl, strMap_set_self _ _ _, rfl⟩
    · intro h
      exact absurd h (by simp)
  · rw [if_neg hc]
    refine ⟨_, _, _, rfl, strMap_set_self _ _ _, rfl, rfl, ?_, rfl, ?_, ?_, ?_⟩
    · intro q hq
      simp [StrMap.set, hq]
    · simp only [Option.isSome_none, Bool.false_eq_true, false_iff]
      intro hcon
      exact hc ⟨hcon.1, (shouldThrottle_false_iff _ _).mpr hcon.2⟩
    · intro sug hsug
      exact absurd hsug (by simp)
    · intro _
      exact ⟨rfl, rfl⟩

/-- C2: for every structurally valid `recordReminderInteraction` call on a
task with any prior `consecutiveSkips` value, a `skip` action increments
the counter, a `complete` or `snooze` action resets it to 0 regardless of
the prior value, and any other action string leaves it exactly unchanged
(the interaction is only logged). -/
theorem C2_consecutive_skip_counter (s : GlobalState) (args : RecordArgs)
    (nowMs : Int) (env : OpenAIEnv) (parse : String → Option ParsedSuggestion)
    (h1 : args.taskId ≠ "") (h2 : args.action ≠ "") :
    ∃ res st, recordReminderInteraction s args nowMs env parse = (Except.ok res, st) ∧
      ((args.action = "skip" →
          (getTaskState st args.taskId).consecutiveSkips =
            (getTaskState s args.taskId).consecutiveSkips + 1) ∧
       ((args.action = "complete" ∨ args.action = "snooze") →
          (getTaskState st args.taskId).consecutiveSkips = 0) ∧
       (args.action ≠ "skip" → args.action ≠ "complete" → args.action ≠ "snooze" →
          (getTaskState st args.taskId).consecutiveSkips =
            (getTaskState s args.taskId).consecutiveSkips)) := by
  obtain ⟨res, st, ts, heq, hts, -, hskips, -⟩ :=
    record_valid_spec s args nowMs env parse h1 h2
  refine ⟨res, st, heq, ?_, ?_, ?_⟩ <;> rw [getTaskState_of_eq hts, hskips]
  · intro ha
    simp [nextConsecutiveSkips, ha]
  · rintro (ha | ha) <;> simp [nextConsecutiveSkips, ha]
  · intro ha1 ha2 ha3
    simp [nextConsecutiveSkips, ha1, ha2, ha3]

/-- Witness for C2: a skip recorded for a task with 2 prior consecutive
skips leaves the counter at 3. -/
theorem C2_consecutive_skip_counter_witness :
    ∃ res st, recordReminderInteraction sampleState (skipArgs "task-1") 0
        offlineEnv noParse = (Except.ok res, st) ∧
      (getTaskState st "task-1").consecutiveSkips = 3 := by
  obtain ⟨res, st, heq, hskip, -, -⟩ :=
    C2_consecutive_skip_counter sampleState (skipArgs "task-1") 0 offlineEnv noParse
      (by decide) (by decide)
  refine ⟨res, st, heq, ?_⟩
  have h := hskip rfl
  simp only [skipArgs] at h
  rw [h]
  rfl

/-- C4: the heuristic suggestion's `reminderIntervalMinutes` equals
`max(15, round(previousInterval * 0.5))` with the previous interval
defaulting to 45; hence it is never below 15, and a previous interval of
45 yields exactly 23 (22.5 rounded half-up). -/
theorem C4_heuristic_interval :
    (∀ summary : ReminderSummary,
      (fallbackReminderSuggestion summary).recommendedAdjustments.reminderIntervalMinutes =
        some (max 15 (roundHalf (natOrDefault summary.context.reminderIntervalMinutes 45)))) ∧
    (∀ (summary : ReminderSummary) (v : Nat),
      (fallbackReminderSuggestion summary).recommendedAdjustments.reminderIntervalMinutes =
          some v → 15 ≤ v) ∧
    (∀ summary : ReminderSummary, summary.context.reminderIntervalMinutes = some 45 →
      (fallbackReminderSuggestion summary).recommendedAdjustments.reminderIntervalMinutes =
        some 23) := by
  refine ⟨fun summary => rfl, ?_, ?_⟩
  · intro summary v hv
    injection hv with h
    rw [← h]
    exact le_max_left _ _
  · intro summary h
    simp [fallbackReminderSuggestion, h, natOrDefault, roundHalf]

/-- Witness for C4: a supplied previous interval of 45 produces 23. -/
theorem C4_heuristic_interval_witness :
    (fallbackReminderSuggestion
        (summaryWithInterval (some 45))).recommendedAdjustments.reminderIntervalMinutes =
      some 23 :=
  C4_heuristic_interval.2.2 _ rfl

/-- C10: a caller-supplied `context.reminderIntervalMinutes` of 0, like an
absent one, is falsy under `||` and replaced by the 45-minute default, so
the heuristic interval is 23 and never 15. -/
theorem C10_falsy_interval_uses_default (summary : ReminderSummary)
    (h : summary.context.reminderIntervalMinutes = none ∨
         summary.context.reminderIntervalMinutes = some 0) :
    (fallbackReminderSuggestion summary).recommendedAdjustments.reminderIntervalMinutes =
        some 23 ∧
    (fallbackReminderSuggestion summary).recommendedAdjustments.reminderIntervalMinutes ≠
        some 15 := by
  rcases h with h | h <;>
    exact ⟨by simp [fallbackReminderSuggestion, h, natOrDefault, roundHalf],
      by simp [fallbackReminderSuggestion, h, natOrDefault, roundHalf]⟩

/-- Witness for C10: an explicit 0 interval produces 23. -/
theorem C10_falsy_interval_witness :
    (fallbackReminderSuggestion
        (summaryWithInterval (some 0))).recommendedAdjustments.reminderIntervalMinutes =
      some 23 :=
  (C10_falsy_interval_uses_default _ (Or.inr rfl)).1

/-- C9: for every nonempty task id (the only ids the API can create
state for), `resetTaskHistory` deletes both the task state and any stored
last suggestion, so `getLastSuggestion` right after returns `null`, while
every other id's state and the brain dump history are unchanged. -/
theorem C9_reset_then_get (s : GlobalState) (taskId : String) (h : taskId ≠ "") :
    (resetTaskHistory s taskId).tasks taskId = none ∧
    (resetTaskHistory s taskId).lastSuggestion taskId = none ∧
    getLastSuggestion (resetTaskHistory s taskId) taskId = none ∧
    (∀ q, q ≠ taskId →
      (resetTaskHistory s taskId).tasks q = s.tasks q ∧
      (resetTaskHistory s taskId).lastSuggestion q = s.lastSuggestion q) ∧
    (resetTaskHistory s taskId).brainDumpHistory = s.brainDumpHistory := by
  unfold resetTaskHistory
  rw [if_neg h]
  refine ⟨by simp [StrMap.del], by simp [StrMap.del],
    by simp [getLastSuggestion, StrMap.del], ?_, rfl⟩
  intro q hq
  simp [StrMap.del, hq]

/-- Witness for C9: resetting a populated task deletes its suggestion and
leaves another id untouched. -/
theorem C9_reset_then_get_witness :
    getLastSuggestion (resetTaskHistory sampleState "task-1") "task-1" = none ∧
    (resetTaskHistory sampleState "task-1").tasks "task-2" =
      sampleState.tasks "task-2" := by
  obtain ⟨-, -, hget, hother, -⟩ := C9_reset_then_get sampleState "task-1" (by decide)
  exact ⟨hget, (hother "task-2" (by decide)).1⟩

/-- Counterexample to C7 as stated: with the submission `["", "call mom"]`
there is 1 counted (non-blank) item and 1 non-empty bucket, so the claim
predicts the summary "Organized 1 items into 1 categories.", but the code
counts `items.length` including the blank item and produces
"Organized 2 items into 1 categories.". -/
theorem C7_blank_items_counted_counterexample :
    (fallbackBrainDump ["", "call mom"]).summary =
        some "Organized 2 items into 1 categories." ∧
    (fallbackBrainDump ["", "call mom"]).summary ≠
        some "Organized 1 items into 1 categories." := by
  constructor
  · decide
  · decide

theorem addToBucket_nonempty (cats : List (String × List String)) (label text : String)
    (h : ∀ b ∈ cats, b.2 ≠ []) : ∀ b ∈ addToBucket cats label text, b.2 ≠ [] := by
  induction cats with
  | nil =>
    intro b hb
    simp only [addToBucket, List.mem_singleton] at hb
    subst hb
    simp
  | cons c rest ih =>
    intro b hb
    obtain ⟨l, xs⟩ := c
    simp only [addToBucket] at hb
    split at hb
    · rcases List.mem_cons.mp hb with hb | hb
      · subst hb
        simp
      · exact h b (List.mem_cons_of_mem _ hb)
    · rcases List.mem_cons.mp hb with hb | hb
      · subst hb
        exact h _ (List.mem_cons_self _ _)
      · exact ih (fun b hb => h b (List.mem_cons_of_mem _ hb)) b hb

theorem foldl_categorizeStep_nonempty (items : List String) :
    ∀ acc, (∀ b ∈ acc, b.2 ≠ []) →
      ∀ b ∈ items.foldl categorizeStep acc, b.2 ≠ [] := by
  induction items with
  | nil => intro acc hacc; exact hacc
  | cons i rest ih =>
    intro acc hacc
    simp only [List.foldl_cons]
    refine ih _ ?_
    by_cases hb : jsTrim i = ""
    · simpa [categorizeStep, hb] using hacc
    · simpa [categorizeStep, hb] using
        addToBucket_nonempty acc (matchLabel (jsTrim i)) (jsTrim i) hacc

theorem foldl_categorizeStep_filter (items : List String) :
    ∀ acc, items.foldl categorizeStep acc =
      (items.filter (fun item => !(jsTrim item == ""))).foldl categorizeStep acc := by
  induction items with
  | nil => intro acc; rfl
  | cons i rest ih =>
    intro acc
    by_cases hb : jsTrim i = ""
    · have hstep : categorizeStep acc i = acc := by simp [categorizeStep, hb]
      have hf : (!(jsTrim i == "")) = false := by simp [hb]
      simp only [List.foldl_cons, hstep, List.filter_cons, hf, if_false]
      exact ih acc
    · have hf : (!(jsTrim i == "")) = true := by simp [hb]
      simp only [List.foldl_cons, List.filter_cons, hf, if_true]
      exact ih _

/-- C7 amended: blank items are skipped entirely by the heuristic
categorizer (the categorization equals that of the blank-free sublist and
every created bucket is non-empty), and the summary is exactly
"Organized {n} items into {k} categories." where n is the total number
of submitted items (blanks included, as `items.length` counts them) and k
is the number of non-empty buckets, reported as at least 1. -/
theorem C7_blank_items_skipped :
    ∀ items : List String,
      categorize items =
        categorize (items.filter (fun item => !(jsTrim item == ""))) ∧
      (∀ b ∈ categorize items, b.2 ≠ []) ∧
      (fallbackBrainDump items).summary =
        some ("Organized " ++ toString items.length ++ " items into " ++
          toString (if (categorize items).length = 0 then 1
            else (categorize items).length) ++ " categories.") := by
  intro items
  refine ⟨foldl_categorizeStep_filter items [], ?_, rfl⟩
  exact foldl_categorizeStep_nonempty items [] (by simp)

/-- C8: `organizeBrainDump` appends exactly one `BrainDumpRecord` holding
the normalized items, whatever the environment, fallback flag or parse
outcome (so independently of the categorization outcome), and the old
history is a prefix of the new one; no other operation
(`recordReminderInteraction`, `resetTaskHistory`) ever changes
`brainDumpHistory`, so it only grows. -/
theorem C8_brain_dump_append_only :
    (∀ (s : GlobalState) (items : Option (List String)) (nowIso : String)
        (ff : Bool) (env : OpenAIEnv) (parse : String → Option ParsedBrainDump),
      (organizeBrainDump s items nowIso ff env parse).2.brainDumpHistory =
        s.brainDumpHistory ++ [{ items := items.getD [], timestamp := nowIso }] ∧
      s.brainDumpHistory <+:
        (organizeBrainDump s items nowIso ff env parse).2.brainDumpHistory) ∧
    (∀ (s : GlobalState) (args : RecordArgs) (nowMs : Int) (env : OpenAIEnv)
        (parse : String → Option ParsedSuggestion),
      (recordReminderInteraction s args nowMs env parse).2.brainDumpHistory =
        s.brainDumpHistory) ∧
    (∀ (s : GlobalState) (taskId : String),
      (resetTaskHistory s taskId).brainDumpHistory = s.brainDumpHistory) := by
  refine ⟨?_, ?_, ?_⟩
  · intro s items nowIso ff env parse
    have heq : (organizeBrainDump s items nowIso ff env parse).2.brainDumpHistory =
        s.brainDumpHistory ++ [{ items := items.getD [], timestamp := nowIso }] := by
      unfold organizeBrainDump
      repeat' split
      all_goals simp_all [Option.getD]
    exact ⟨heq, heq ▸ List.prefix_append _ _⟩
  · intro s args nowMs env parse
    by_cases hv : args.taskId = "" ∨ args.action = ""
    · unfold recordReminderInteraction
      rw [if_pos hv]
    · obtain ⟨res, st, ts, heq, -, -, -, -, hbd, -⟩ :=
        record_valid_spec s args nowMs env parse (by tauto) (by tauto)
      rw [heq]
      exact hbd
  · intro s taskId
    unfold resetTaskHistory
    split <;> rfl

theorem bucketLookup_cons_eq (cs : List (String × List String)) (l : String)
    (xs : List String) : bucketLookup ((l, xs) :: cs) l = xs := by
  unfold bucketLookup
  rw [List.find?_cons_of_pos _ (by simp)]

theorem bucketLookup_cons_ne (cs : List (String × List String)) (l : String)
    (xs : List String) (label : String) (h : l ≠ label) :
    bucketLookup ((l, xs) :: cs) label = bucketLookup cs label := by
  unfold bucketLookup
  rw [List.find?_cons_of_neg _ (by simp [h])]

theorem addToBucket_cons_eq (l : String) (xs : List String)
    (rest : List (String × List String)) (text : String) :
    addToBucket ((l, xs) :: rest) l text = (l, xs ++ [text]) :: rest := by
  simp [addToBucket]

theorem addToBucket_cons_ne (l : String) (xs : List String)
    (rest : List (String × List String)) (label text : String) (h : l ≠ label) :
    addToBucket ((l, xs) :: rest) label text = (l, xs) :: addToBucket rest label text := by
  simp [addToBucket, h]

theorem bucketLookup_addToBucket_self (cats : List (String × List String))
    (label text : String) :
    text ∈ bucketLookup (addToBucket cats label text) label := by
  induction cats with
  | nil =>
    simp only [addToBucket]
    rw [bucketLookup_cons_eq]
    simp
  | cons c rest ih =>
    obtain ⟨l, xs⟩ := c
    by_cases hl : l = label
    · subst hl
      rw [addToBucket_cons_eq, bucketLookup_cons_eq]
      simp
    · rw [addToBucket_cons_ne _ _ _ _ _ hl, bucketLookup_cons_ne _ _ _ _ hl]
      exact ih

theorem bucketLookup_addToBucket_preserve (cats : List (String × List String))
    (label text : String) (l' x : String) (h : x ∈ bucketLookup cats l') :
    x ∈ bucketLookup (addToBucket cats label text) l' := by
  induction cats with
  | nil =>
    simp [bucketLookup] at h
  | cons c rest ih =>
    obtain ⟨l, xs⟩ := c
    by_cases hl' : l = l'
    · subst hl'
      rw [bucketLookup_cons_eq] at h
      by_cases hl : l = label
      · subst hl
        rw [addToBucket_cons_eq, bucketLookup_cons_eq]
        exact List.mem_append_left _ h
      · rw [addToBucket_cons_ne _ _ _ _ _ hl, bucketLookup_cons_eq]
        exact h
    · rw [bucketLookup_cons_ne _ _ _ _ hl'] at h
      by_cases hl : l = label
      · subst hl
        rw [addToBucket_cons_eq, bucketLookup_cons_ne _ _ _ _ hl']
        exact h
      · rw [addToBucket_cons_ne _ _ _ _ _ hl, bucketLookup_cons_ne _ _ _ _ hl']
        exact ih h

theorem foldl_categorizeStep_preserve (items : List String) :
    ∀ (acc : List (String × List String)) (x l : String),
      x ∈ bucketLookup acc l →
      x ∈ bucketLookup (items.foldl categorizeStep acc) l := by
  induction items with
  | nil => intro acc x l h; exact h
  | cons i rest ih =>
    intro acc x l h
    simp only [List.foldl_cons]
    refine ih _ _ _ ?_
    by_cases hb : jsTrim i = ""
    · simpa [categorizeStep, hb] using h
    · simpa [categorizeStep, hb] using
        bucketLookup_addToBucket_preserve acc (matchLabel (jsTrim i)) (jsTrim i) l x h

theorem foldl_categorizeStep_mem (items : List String) :
    ∀ (acc : List (String × List String)) (item : String), item ∈ items →
      jsTrim item ≠ "" →
      jsTrim item ∈ bucketLookup (items.foldl categorizeStep acc)
        (matchLabel (jsTrim item)) := by
  induction items with
  | nil => intro acc item h; cases h
  | cons i rest ih =>
    intro acc item hmem hnb
    simp only [List.foldl_cons]
    rcases List.mem_cons.mp hmem with rfl | hmem
    · refine foldl_categorizeStep_preserve rest _ _ _ ?_
      have : categorizeStep acc item =
          addToBucket acc (matchLabel (jsTrim item)) (jsTrim item) := by
        simp [categorizeStep, hnb]
      rw [this]
      exact bucketLookup_addToBucket_self _ _ _
    · exact ih _ item hmem hnb

/-- C6: every non-blank item is filed under the bucket of the first rule
(in the fixed order "2-minute Wins", "Prep & Planning", "Deep Work",
"Personal Care") whose case-insensitive keyword pattern matches its
trimmed text, with "Miscellaneous" when none matches; and the concrete
forced-fallback organize call of the claim yields exactly the three
singleton buckets with a focus recommendation naming the first of them. -/
theorem C6_heuristic_categorizer :
    (∀ (items : List String) (item : String), item ∈ items → jsTrim item ≠ "" →
      jsTrim item ∈ bucketLookup (categorize items) (matchLabel (jsTrim item))) ∧
    (∀ (s : GlobalState) (nowIso : String) (env : OpenAIEnv)
        (parse : String → Option ParsedBrainDump),
      (organizeBrainDump s (some ["call mom", "write report", "nonsense xyz"]) nowIso
          true env parse).1 =
        { categories := [("2-minute Wins", ["call mom"]),
            ("Deep Work", ["write report"]), ("Miscellaneous", ["nonsense xyz"])],
          focusRecommendation := some "Start with one item from \"2-minute Wins\" today.",
          summary := some "Organized 3 items into 3 categories.",
          rawResponse := none, error := none }) ∧
    (matchLabel "call mom" = "2-minute Wins" ∧
     matchLabel "write report" = "Deep Work" ∧
     matchLabel "nonsense xyz" = "Miscellaneous") := by
  refine ⟨fun items item hmem hnb => foldl_categorizeStep_mem items [] item hmem hnb,
    ?_, by decide, by decide, by decide⟩
  intro s nowIso env parse
  unfold organizeBrainDump
  rw [if_pos (Or.inr rfl)]
  show fallbackBrainDump ["call mom", "write report", "nonsense xyz"] = _
  decide

/-- Witness for C6: "call mom" is filed under its first-matching label. -/
theorem C6_heuristic_categorizer_witness :
    jsTrim "call mom" ∈
      bucketLookup (categorize ["call mom", "write report", "nonsense xyz"])
        (matchLabel (jsTrim "call mom")) :=
  C6_heuristic_categorizer.1 _ "call mom" (by decide) (by decide)

/-- Witness for C7 amended: the bucket created for the non-blank item of
`["", "call mom"]` is non-empty. -/
theorem C7_blank_items_skipped_witness :
    ("2-minute Wins", ["call mom"]).2 ≠ [] :=
  (C7_blank_items_skipped ["", "call mom"]).2.1 _ (by decide)

/-- C5: `recordReminderInteraction` raises an error exactly when `taskId`
or `action` is empty, and in that case the state is completely unchanged;
`generateReminderAdjustments` and `organizeBrainDump` convert every
`callOpenAI` failure into the heuristic result annotated with the
failure's message as `error` and every JSON-parse failure of successful
output into the heuristic result carrying the raw text as `rawResponse`
(so they never propagate a rejection); and each network-related failure
kind (missing API key, rejected fetch, non-2xx response, absent or blank
response text) makes `callOpenAI` fail with a message. -/
theorem C5_degradation_policy :
    (∀ (s : GlobalState) (args : RecordArgs) (nowMs : Int) (env : OpenAIEnv)
        (parse : String → Option ParsedSuggestion),
      ((∃ e, (recordReminderInteraction s args nowMs env parse).1 = Except.error e) ↔
        (args.taskId = "" ∨ args.action = "")) ∧
      ((args.taskId = "" ∨ args.action = "") →
        (recordReminderInteraction s args nowMs env parse).2 = s)) ∧
    (∀ (summary : ReminderSummary) (env : OpenAIEnv)
        (parse : String → Option ParsedSuggestion) (msg : String),
      env.fetchAvailable = true → callOpenAI env.apiKey env.http = Except.error msg →
      generateReminderAdjustments summary false env parse =
        { fallbackReminderSuggestion summary with error := some msg }) ∧
    (∀ (summary : ReminderSummary) (env : OpenAIEnv)
        (parse : String → Option ParsedSuggestion) (text : String),
      env.fetchAvailable = true → callOpenAI env.apiKey env.http = Except.ok text →
      parse text = none →
      generateReminderAdjustments summary false env parse =
        { fallbackReminderSuggestion summary with
            rawResponse := some (RawResponse.text text) }) ∧
    (∀ env : OpenAIEnv,
      (env.apiKey = "" ∨ (∃ m, env.http = HttpOutcome.networkError m) ∨
       (∃ st em tx, env.http = HttpOutcome.response false st em tx) ∨
       (∃ st em, env.http = HttpOutcome.response true st em none) ∨
       (∃ st em tx, env.http = HttpOutcome.response true st em (some tx) ∧
         jsTrim tx = "")) →
      ∃ msg, callOpenAI env.apiKey env.http = Except.error msg) ∧
    (∀ (s : GlobalState) (items : Option (List String)) (nowIso : String)
        (env : OpenAIEnv) (parse : String → Option ParsedBrainDump) (msg : String),
      env.fetchAvailable = true → callOpenAI env.apiKey env.http = Except.error msg →
      (organizeBrainDump s items nowIso false env parse).1 =
        { fallbackBrainDump (items.getD []) with error := some msg }) ∧
    (∀ (s : GlobalState) (items : Option (List String)) (nowIso : String)
        (env : OpenAIEnv) (parse : String → Option ParsedBrainDump) (text : String),
      env.fetchAvailable = true → callOpenAI env.apiKey env.http = Except.ok text →
      parse text = none →
      (organizeBrainDump s items nowIso false env parse).1 =
        { fallbackBrainDump (items.getD []) with rawResponse := some text }) := by
  refine ⟨?_, ?_, ?_, ?_, ?_, ?_⟩
  · intro s args nowMs env parse
    constructor
    · by_cases hv : args.taskId = "" ∨ args.action = ""
      · constructor
        · intro _; exact hv
        · intro _
          unfold recordReminderInteraction
          rw [if_pos hv]
          exact ⟨_, rfl⟩
      · constructor
        · intro ⟨e, he⟩
          obtain ⟨res, st, ts, heq, -⟩ :=
            record_valid_spec s args nowMs env parse (by tauto) (by tauto)
          rw [heq] at he
          cases he
        · intro h; exact absurd h hv
    · intro hv
      unfold recordReminderInteraction
      rw [if_pos hv]
  · intro summary env parse msg hfa hcall
    unfold generateReminderAdjustments
    rw [if_neg (by simp [hfa]), hcall]
  · intro summary env parse text hfa hcall hparse
    unfold generateReminderAdjustments
    rw [if_neg (by simp [hfa]), hcall]
    dsimp only
    rw [hparse]
  · intro env h
    unfold callOpenAI
    by_cases hk : env.apiKey = ""
    · rw [if_pos hk]
      exact ⟨_, rfl⟩
    · rw [if_neg hk]
      rcases h with h | ⟨m, h⟩ | ⟨st, em, tx, h⟩ | ⟨st, em, h⟩ | ⟨st, em, tx, h, htx⟩
      · exact absurd h hk
      · rw [h]
        exact ⟨_, rfl⟩
      · rw [h]
        exact ⟨_, rfl⟩
      · rw [h]
        refine ⟨"OpenAI returned an unexpected response format", ?_⟩
        dsimp only
        rw [if_neg (by simp)]
      · rw [h]
        refine ⟨"OpenAI returned an unexpected response format", ?_⟩
        dsimp only
        rw [if_neg (by simp), if_pos htx]
  · intro s items nowIso env parse msg hfa hcall
    cases items <;>
      · unfold organizeBrainDump
        rw [if_neg (by simp [hfa]), hcall]
        rfl
  · intro s items nowIso env parse text hfa hcall hparse
    cases items <;>
      · unfold organizeBrainDump
        rw [if_neg (by simp [hfa]), hcall]
        dsimp only
        rw [hparse]
        rfl

/-- Witness for C5: with `fetch` available but no stored API key, the
generator returns the heuristic suggestion annotated with the missing-key
message. -/
theorem C5_degradation_policy_witness :
    generateReminderAdjustments (summaryWithInterval none) false
        { fetchAvailable := true, apiKey := "", http := HttpOutcome.networkError "x" }
        noParse =
      { fallbackReminderSuggestion (summaryWithInterval none) with
          error := some "Missing OpenAI API key" } :=
  C5_degradation_policy.2.1 _ _ noParse _ rfl rfl

theorem trackHistory_eq_drop (h : List InteractionEntry) (e : InteractionEntry) :
    trackHistory h e = (h ++ [e]).drop (h.length + 1 - 50) := by
  unfold trackHistory
  simp only []
  split
  · simp
  · next hc =>
    have hle : h.length + 1 ≤ 50 := by
      simpa using Nat.le_of_not_lt hc
    have : h.length + 1 - 50 = 0 := by omega
    rw [this, List.drop_zero]

theorem trackHistory_length (h : List InteractionEntry) (e : InteractionEntry) :
    (trackHistory h e).length = min (h.length + 1) 50 := by
  rw [trackHistory_eq_drop]
  simp only [List.length_drop, List.length_append, List.length_singleton]
  omega

theorem foldl_trackHistory_drop (es : List InteractionEntry) :
    ∀ h : List InteractionEntry, h.length ≤ 50 →
      es.foldl trackHistory h = (h ++ es).drop (h.length + es.length - 50) := by
  induction es with
  | nil =>
    intro h hle
    simp only [List.foldl_nil, List.length_nil, List.append_nil]
    have : h.length + 0 - 50 = 0 := by omega
    rw [this, List.drop_zero]
  | cons e rest ih =>
    intro h hle
    simp only [List.foldl_cons, List.length_cons]
    rw [ih (trackHistory h e) (by rw [trackHistory_length]; omega)]
    rw [trackHistory_eq_drop]
    have hk : h.length + 1 - 50 ≤ (h ++ [e]).length := by
      simp only [List.length_append, List.length_singleton]
      omega
    rw [(List.drop_append_of_le_length hk).symm, List.drop_drop]
    simp only [List.length_drop, List.length_append, List.length_singleton]
    rw [List.append_assoc, List.singleton_append]
    congr 1
    omega

theorem runArgsList_history (argsList : List RecordArgs) :
    ∀ (s : GlobalState) (taskId : String) (nowMs : Int) (env : OpenAIEnv)
      (parse : String → Option ParsedSuggestion),
      taskId ≠ "" → (∀ a ∈ argsList, a.taskId = taskId ∧ a.action ≠ "") →
      (getTaskState (runArgsList s argsList nowMs env parse) taskId).history =
        argsList.foldl (fun hist a => trackHistory hist (entryOf a))
          (getTaskState s taskId).history := by
  induction argsList with
  | nil => intros; rfl
  | cons a rest ih =>
    intro s taskId nowMs env parse htid hall
    obtain ⟨hat, haa⟩ := hall a (List.mem_cons_self _ _)
    obtain ⟨res, st, ts, heq, hts, hhist, -⟩ :=
      record_valid_spec s a nowMs env parse (by rw [hat]; exact htid) haa
    have hstep : (runInteraction s a nowMs env parse).2 = st := by
      simp only [runInteraction, heq]
    simp only [runArgsList, List.foldl_cons] at ih ⊢
    rw [hstep, ih st taskId nowMs env parse htid
      (fun b hb => hall b (List.mem_cons_of_mem _ hb))]
    have hst : getTaskState st taskId = ts := by
      rw [← hat]
      exact getTaskState_of_eq hts
    rw [hst, hhist, hat]
    rfl

/-- C3: the history produced by `trackHistory` never exceeds 50 entries
and equals the FIFO suffix of the pushed list (oldest entries dropped
first); consequently, for any sequence of recorded interactions for one
task starting from the fresh state, the retained history stays within 50
entries, and after exactly 60 recorded interactions it equals the last 50
recorded entries in their original insertion order. -/
theorem C3_history_ring_buffer :
    (∀ (h : List InteractionEntry) (e : InteractionEntry),
      (trackHistory h e).length ≤ 50 ∧
      trackHistory h e = (h ++ [e]).drop (h.length + 1 - 50)) ∧
    (∀ (argsList : List RecordArgs) (taskId : String) (nowMs : Int)
        (env : OpenAIEnv) (parse : String → Option ParsedSuggestion),
      taskId ≠ "" → (∀ a ∈ argsList, a.taskId = taskId ∧ a.action ≠ "") →
      (getTaskState (runArgsList initialState argsList nowMs env parse)
          taskId).history.length ≤ 50 ∧
      (argsList.length = 60 →
        (getTaskState (runArgsList initialState argsList nowMs env parse)
            taskId).history = (argsList.map entryOf).drop 10)) := by
  constructor
  · intro h e
    refine ⟨?_, trackHistory_eq_drop h e⟩
    rw [trackHistory_length]
    omega
  · intro argsList taskId nowMs env parse htid hall
    have hbase : (getTaskState initialState taskId).history = [] := rfl
    have hrun := runArgsList_history argsList initialState taskId nowMs env parse htid hall
    rw [hbase] at hrun
    have hfold : argsList.foldl (fun hist a => trackHistory hist (entryOf a)) [] =
        (argsList.map entryOf).foldl trackHistory [] := by
      rw [List.foldl_map]
    have hdrop := foldl_trackHistory_drop (argsList.map entryOf) [] (by simp)
    simp only [List.length_nil, List.nil_append, Nat.zero_add] at hdrop
    constructor
    · rw [hrun, hfold, hdrop]
      simp only [List.length_drop, List.length_map]
      omega
    · intro hlen
      rw [hrun, hfold, hdrop]
      simp only [List.length_map, hlen]

/-- Witness for C3: 60 recorded skips retain exactly the last 50
entries. -/
theorem C3_history_ring_buffer_witness :
    (getTaskState (runArgsList initialState (List.replicate 60 (skipArgs "task-1")) 0
        offlineEnv noParse) "task-1").history =
      ((List.replicate 60 (skipArgs "task-1")).map entryOf).drop 10 :=
  ((C3_history_ring_buffer.2 (List.replicate 60 (skipArgs "task-1")) "task-1" 0 offlineEnv noParse
      (by decide) (by decide)).2 (by decide))

/-- C1: a structurally valid `recordReminderInteraction` call returns a
suggestion if and only if, after the counter update for this interaction,
the task's `consecutiveSkips` is at least 3 and the current time minus the
task's `lastSuggestionTimestamp` is at least one hour; with
`lastSuggestionTimestamp = 0` (never suggested) the throttle conjunct
holds for any wall clock at least one hour past the epoch, so it never
blocks a first suggestion; and concretely, three consecutive skips from a
fresh task yield a suggestion on the third (at any such wall-clock time),
while a fourth skip within one hour of that suggestion yields `null`. -/
theorem C1_trigger_policy :
    (∀ (s : GlobalState) (args : RecordArgs) (nowMs : Int) (env : OpenAIEnv)
        (parse : String → Option ParsedSuggestion),
      args.taskId ≠ "" → args.action ≠ "" →
      ∃ res st, recordReminderInteraction s args nowMs env parse = (Except.ok res, st) ∧
        (res.isSome = true ↔
          (3 ≤ nextConsecutiveSkips args.action
              (getTaskState s args.taskId).consecutiveSkips ∧
           ONE_HOUR ≤ nowMs - (getTaskState s args.taskId).lastSuggestionTimestamp))) ∧
    (∀ (s : GlobalState) (args : RecordArgs) (nowMs : Int) (env : OpenAIEnv)
        (parse : String → Option ParsedSuggestion),
      args.taskId ≠ "" → args.action ≠ "" →
      (getTaskState s args.taskId).lastSuggestionTimestamp = 0 → ONE_HOUR ≤ nowMs →
      ∃ res st, recordReminderInteraction s args nowMs env parse = (Except.ok res, st) ∧
        (res.isSome = true ↔
          3 ≤ nextConsecutiveSkips args.action
            (getTaskState s args.taskId).consecutiveSkips)) ∧
    (∀ t3 t4 : Int, ONE_HOUR ≤ t3 → t4 - t3 < ONE_HOUR →
      (runInteraction twoSkips (skipArgs "task-1") t3 offlineEnv noParse).1.isSome = true ∧
      (runInteraction
          (runInteraction twoSkips (skipArgs "task-1") t3 offlineEnv noParse).2
          (skipArgs "task-1") t4 offlineEnv noParse).1 = none) := by
  refine ⟨?_, ?_, ?_⟩
  · intro s args nowMs env parse h1 h2
    obtain ⟨res, st, ts, heq, -, -, -, -, -, hiff, -⟩ :=
      record_valid_spec s args nowMs env parse h1 h2
    exact ⟨res, st, heq, hiff⟩
  · intro s args nowMs env parse h1 h2 hts0 hnow
    obtain ⟨res, st, ts, heq, -, -, -, -, -, hiff, -⟩ :=
      record_valid_spec s args nowMs env parse h1 h2
    rw [hts0, sub_zero] at hiff
    exact ⟨res, st, heq, hiff.trans (and_iff_left hnow)⟩
  · intro t3 t4 h3 h4
    have htwo : getTaskState twoSkips "task-1" =
        { history := [{ action := "skip", timestamp := "" },
            { action := "skip", timestamp := "" }],
          consecutiveSkips := 2, lastSuggestionTimestamp := 0 } := by decide
    obtain ⟨res, st, ts, heq, hts, -, -, -, -, hiff, hsome, -⟩ :=
      record_valid_spec twoSkips (skipArgs "task-1") t3 offlineEnv noParse
        (by decide) (by decide)
    simp only [skipArgs] at heq hts hiff hsome
    have hrun : runInteraction twoSkips (skipArgs "task-1") t3 offlineEnv noParse =
        (res, st) := by
      simp only [runInteraction, skipArgs] at heq ⊢
      rw [heq]
    have hres : res.isSome = true := by
      apply hiff.mpr
      rw [htwo]
      refine ⟨by decide, ?_⟩
      simpa using h3
    refine ⟨by rw [hrun]; exact hres, ?_⟩
    obtain ⟨sug, hsug⟩ := Option.isSome_iff_exists.mp hres
    obtain ⟨-, -, hstamp⟩ := hsome sug hsug
    have hgts : getTaskState st "task-1" = ts := getTaskState_of_eq hts
    obtain ⟨res4, st4, ts4, heq4, -, -, -, -, -, hiff4, -⟩ :=
      record_valid_spec st (skipArgs "task-1") t4 offlineEnv noParse
        (by decide) (by decide)
    simp only [skipArgs] at heq4 hiff4
    have hrun4 : runInteraction st (skipArgs "task-1") t4 offlineEnv noParse =
        (res4, st4) := by
      simp only [runInteraction, skipArgs] at heq4 ⊢
      rw [heq4]
    rw [hrun]
    dsimp only
    rw [hrun4]
    dsimp only
    have hnot : ¬(res4.isSome = true) := by
      rw [hiff4]
      rintro ⟨-, hged⟩
      rw [hgts, hstamp] at hged
      exact absurd hged (not_le.mpr h4)
    exact Option.not_isSome_iff_eq_none.mp hnot

/-- Witness for C1: at `t3 = t4 = ONE_HOUR` the third skip produces a
suggestion and the fourth, one instant later, is throttled to `null`. -/
theorem C1_trigger_policy_witness :
    (runInteraction twoSkips (skipArgs "task-1") ONE_HOUR offlineEnv
        noParse).1.isSome = true ∧
    (runInteraction
        (runInteraction twoSkips (skipArgs "task-1") ONE_HOUR offlineEnv noParse).2
        (skipArgs "task-1") ONE_HOUR offlineEnv noParse).1 = none :=
  C1_trigger_policy.2.2 ONE_HOUR ONE_HOUR le_rfl (by decide)
